import Mathlib

/-!
Verification of the seq2seq training/evaluation/inference wrapper
(`simpletransformers/seq2seq/seq2seq_model.py`).

The Python code is shallowly embedded: Python dicts become `String → Option PyVal`
maps or association lists, floats become `ℚ` (only orderings and field arithmetic
matter to the control logic), Python `//` and `%` on non-negative ints become `Nat`
division and modulo (`Int.fdiv` where operands can be negative), and the raising
of `ZeroDivisionError` is modelled by returning `none`.  Loss values and metric
values produced by the external ML framework are abstracted as functions supplied
to the loop, exactly as the code receives them from `model(**inputs)` and
`self.eval_model(...)`.
-/

/-- A Python value as stored in the `self.args` configuration dict. -/
inductive PyVal where
  | vnone
  | vbool (b : Bool)
  | vint (n : ℤ)
  | vstr (s : String)
  | vrat (q : ℚ)
deriving DecidableEq

/-- Python truthiness for `PyVal` (`None`, `False`, `0`, `0.0` and `""` are falsy). -/
def pyTruthy : PyVal → Bool
  | .vnone => false
  | .vbool b => b
  | .vint n => decide (n ≠ 0)
  | .vstr s => decide (s ≠ "")
  | .vrat q => decide (q ≠ 0)

/-- The built-in default dict literal assigned to `self.args` in
`Seq2SeqModel.__init__` (lines 123-134 of `seq2seq_model.py`). -/
def builtinDefaultsList : List (String × PyVal) :=
  [("dataset_class", .vnone),
   ("do_sample", .vbool false),
   ("max_steps", .vint (-1)),
   ("evaluate_generated_text", .vbool false),
   ("num_beams", .vint 1),
   ("max_length", .vint 20),
   ("repetition_penalty", .vrat 1),
   ("length_penalty", .vrat 2),
   ("early_stopping", .vbool true),
   ("preprocess_inputs", .vbool true)]

/-- Lookup in the built-in defaults dict. -/
def builtinSeq2SeqDefaults (k : String) : Option PyVal :=
  builtinDefaultsList.lookup k

/-- Python `d.update(u)` viewed extensionally: a key present in `u` wins,
otherwise the old binding survives. -/
def dictUpdate (d u : String → Option PyVal) : String → Option PyVal :=
  fun k =>
    match u k with
    | some v => some v
    | none => d k

/-- The configuration produced by the merging step of `__init__`
(lines 123-139): built-in defaults, updated with `global_args`, then updated
with the caller dict when the caller dict is truthy (`if args:`). -/
def mergedArgs (ga user : String → Option PyVal) (userTruthy : Bool) :
    String → Option PyVal :=
  let a0 := dictUpdate builtinSeq2SeqDefaults ga
  if userTruthy then dictUpdate a0 user else a0

/-- Python truthiness of an optional string argument (`None` and `""` are falsy). -/
def strTruthy : Option String → Bool
  | none => false
  | some s => decide (s ≠ "")

/-- Overwrite one key of a configuration map (`self.args[k] = v`). -/
def setKey (f : String → Option PyVal) (k : String) (v : PyVal) :
    String → Option PyVal :=
  fun q => if q = k then some v else f q

/-- The keys of the `MODEL_CLASSES` registry (lines 58-66); any other lookup
at lines 161-164 raises `KeyError`. -/
def modelClassesKeys : List String :=
  ["auto", "bert", "roberta", "distilbert", "camembert", "electra", "bart"]

/-- The configuration dict as it stands at the end of a SUCCESSFUL `__init__`:
the merge of lines 123-139 followed by the later in-constructor writes, in
source order: `fp16 := False` when `use_cuda` is false (line 158),
`wandb_project := None` when it is truthy but wandb is unavailable
(lines 190-192), and the unconditional `model_name` (lines 194-199) and
`model_type` (lines 201-206) assignments. -/
def constructedArgsOk (ga user : String → Option PyVal)
    (userTruthy use_cuda wandbAvailable : Bool)
    (encoder_decoder_type encoder_type : Option String)
    (encoder_decoder_name encoder_name decoder_name : Option String) :
    String → Option PyVal :=
  let a0 := mergedArgs ga user userTruthy
  let a1 := if use_cuda then a0 else setKey a0 "fp16" (.vbool false)
  let wp : Bool :=
    match a1 "wandb_project" with
    | some v => pyTruthy v
    | none => false
  let a2 := if wp && !wandbAvailable then setKey a1 "wandb_project" .vnone else a1
  let mn : String :=
    if strTruthy encoder_decoder_name then encoder_decoder_name.getD ""
    else if strTruthy encoder_name && strTruthy decoder_name then
      encoder_name.getD "" ++ "-" ++ decoder_name.getD ""
    else "encoder-decoder"
  let a3 := setKey a2 "model_name" (.vstr mn)
  let mt : String :=
    if strTruthy encoder_decoder_type then encoder_decoder_type.getD ""
    else if strTruthy encoder_type then encoder_type.getD "" ++ "-bert"
    else "encoder-decoder"
  setKey a3 "model_type" (.vstr mt)

/-- `Seq2SeqModel.__init__` as far as its configuration dict is concerned,
with the constructor's error exits modelled as `none`, in source order: the
two configuration `ValueError`s when `config` is falsy (lines 101-114), the
`ValueError` when `use_cuda` is requested but CUDA is unavailable
(lines 141-151), the `KeyError` of the `MODEL_CLASSES` lookup (lines 161-164,
raised when `encoder_decoder_type` is falsy and `encoder_type` is `None`, or
when the chosen key is not in the registry), and the `KeyError` from reading
`self.args["wandb_project"]` (line 190) when the merged dict lacks that key.
On a successful run the result is `constructedArgsOk`.  The external weight
loading of lines 166-188 is abstracted away (it is pretrained-model I/O). -/
def constructedArgs (ga user : String → Option PyVal)
    (userTruthy hasConfig use_cuda cudaAvailable wandbAvailable : Bool)
    (encoder_decoder_type encoder_type : Option String)
    (encoder_decoder_name encoder_name decoder_name : Option String) :
    Option (String → Option PyVal) :=
  if ¬hasConfig ∧ ¬((strTruthy encoder_name ∧ strTruthy decoder_name) ∨
      strTruthy encoder_decoder_name) then none
  else if ¬hasConfig ∧ ¬(strTruthy encoder_type ∨
      strTruthy encoder_decoder_type) then none
  else if use_cuda ∧ ¬cudaAvailable then none
  else
    match (if strTruthy encoder_decoder_type then encoder_decoder_type
           else encoder_type) with
    | none => none
    | some tk =>
      if tk ∈ modelClassesKeys then
        if ((if use_cuda then mergedArgs ga user userTruthy
             else setKey (mergedArgs ga user userTruthy) "fp16"
               (.vbool false)) "wandb_project").isNone then none
        else
          some (constructedArgsOk ga user userTruthy use_cuda wandbAvailable
            encoder_decoder_type encoder_type encoder_decoder_name
            encoder_name decoder_name)
      else none

/-- A caller-supplied override dict that sets `model_name`, used to exercise
the construction-time overwrites. -/
def c6User : String → Option PyVal :=
  fun k => if k = "model_name" then some (.vstr "x") else none

/-- A stand-in for the global shared defaults that defines `wandb_project`
(as the real `global_args` does), so that line 190 does not raise. -/
def c6GlobalArgs : String → Option PyVal :=
  fun k => if k = "wandb_project" then some .vnone else none

/-- The numeric hyper-parameters of `self.args` that `Seq2SeqModel.train`
reads or writes before the loop starts (lines 294-312), plus an `other` map
holding every remaining key.  `warmupFrac` models the `warmup_ratio` entry. -/
structure TrainHyperArgs where
  max_steps : ℤ
  num_train_epochs : ℤ
  gradient_accumulation_steps : ℤ
  warmupFrac : ℚ
  warmup_steps : ℤ
  other : String → Option PyVal

/-- The writes `train` performs on `self.args` before the epoch loop
(lines 294-312): `num_train_epochs` is reassigned when `max_steps > 0`, and
`warmup_steps` is derived from `warmup_ratio` when it was 0.  `dlLen` is
`len(train_dataloader)`; Python `//` is `Int.fdiv`. -/
def applyTrainArgMutations (dlLen : ℤ) (a : TrainHyperArgs) : TrainHyperArgs :=
  let a1 :=
    if 0 < a.max_steps then
      { a with num_train_epochs :=
          a.max_steps.fdiv (dlLen.fdiv a.gradient_accumulation_steps) + 1 }
    else a
  let t_total : ℤ :=
    if 0 < a.max_steps then a.max_steps
    else dlLen.fdiv a.gradient_accumulation_steps * a.num_train_epochs
  let ws : ℤ := Int.ceil ((t_total : ℚ) * a.warmupFrac)
  { a1 with warmup_steps := if a1.warmup_steps = 0 then ws else a1.warmup_steps }

/-- The insertion-ordered column names of the dict built by
`_create_training_progress_scores` (lines 811-820): `global_step`, `eval_loss`,
`train_loss`, then the extra caller-supplied metric names. -/
def trainingProgressColumns (extraMetrics : List String) : List String :=
  ["global_step", "eval_loss", "train_loss"] ++ extraMetrics

/-- `training_progress_scores[k].append(v)` on a table of named columns. -/
def appendToKey (t : List (String × List ℚ)) (k : String) (v : ℚ) :
    List (String × List ℚ) :=
  t.map (fun p => if p.1 = k then (p.1, p.2 ++ [v]) else p)

/-- One evaluation event's writes to `training_progress_scores`
(lines 471-474): append `global_step`, append `current_loss` to `train_loss`,
then append each entry of `results` to its column. -/
def appendProgressRow (t : List (String × List ℚ)) (gs tl : ℚ)
    (res : List (String × ℚ)) : List (String × List ℚ) :=
  res.foldl (fun acc kv => appendToKey acc kv.1 kv.2)
    (appendToKey (appendToKey t "global_step" gs) "train_loss" tl)

/-- Python `str.split(sep)` for a one-character separator, on character lists.
Always returns a non-empty list; `split` of `[]` is `[[]]` as in Python. -/
def splitOnChar (c : Char) : List Char → List (List Char)
  | [] => [[]]
  | x :: xs =>
    match splitOnChar c xs with
    | [] => [[]]
    | h :: t => if x = c then [] :: h :: t else (x :: h) :: t

/-- The numeric value of a digit string (what Python `int` returns on it). -/
def valOfDigits (l : List Char) : ℕ :=
  l.foldl (fun acc c => acc * 10 + (c.toNat - '0'.toNat)) 0

/-- Python `int(s)` restricted to the strings that appear as checkpoint
suffixes: a non-empty all-digit string parses to its value, anything else
raises `ValueError` (modelled as `none`). -/
def parsePyNat (l : List Char) : Option ℕ :=
  if l ≠ [] ∧ ∀ c ∈ l, c.isDigit then some (valOfDigits l) else none

/-- `model_name.split("/")[-1]`. -/
def lastComponent (name : List Char) : List Char :=
  (splitOnChar '/' name).getLastD []

/-- The candidate step string chosen by the resume logic (lines 355-359):
split the final path component on `-`; take the second part when there are
more than two parts, otherwise the last part. -/
def checkpointCandidate (name : List Char) : List Char :=
  let parts := splitOnChar '-' (lastComponent name)
  if 2 < parts.length then parts.getD 1 [] else parts.getLastD []

/-- The `(global_step, epochs_trained, steps_trained_in_current_epoch)` triple
computed by the resume block (lines 352-371).  A `ValueError` from `int(...)`
is caught and leaves all three at 0 (cold start); a zero value of
`len(train_dataloader) // gradient_accumulation_steps` makes the uncaught
`ZeroDivisionError` crash the call, modelled as `none`. -/
def resumeTriple (name : List Char) (bpe gas : ℕ) : Option (ℕ × ℕ × ℕ) :=
  match parsePyNat (checkpointCandidate name) with
  | none => some (0, 0, 0)
  | some n =>
    if bpe / gas = 0 then none
    else some (n, n / (bpe / gas), n % (bpe / gas))

/-- `resumeTriple` on a `String` model name. -/
def resumeStep (name : String) (bpe gas : ℕ) : Option (ℕ × ℕ × ℕ) :=
  resumeTriple name.data bpe gas

/-- The batching of `predict` (lines 724-727):
`[to_predict[i : i + B] for i in range(0, len(to_predict), B)]`.
A step of 0 makes Python `range` raise; that case returns `[]` here and is
excluded by hypothesis in the theorems. -/
def chunkList {α : Type} : ℕ → List α → List (List α)
  | _, [] => []
  | 0, _ :: _ => []
  | B + 1, x :: xs =>
    ((x :: xs).take (B + 1)) :: chunkList (B + 1) ((x :: xs).drop (B + 1))
termination_by B l => l.length
decreasing_by simp [List.length_drop]; omega

/-- `Seq2SeqModel.predict` (lines 709-760) with the external tokenizer and
generation primitives abstracted: encode each batch, generate row-wise, extend
`all_outputs`, and decode every collected output at the end. -/
def predictPipeline (encode : String → List ℕ) (gen : List ℕ → List ℕ)
    (dec : List ℕ → String) (B : ℕ) (to_predict : List String) : List String :=
  let all_outputs :=
    (chunkList B to_predict).foldl
      (fun acc batch => acc ++ batch.map (fun s => gen (encode s))) []
  all_outputs.map dec

/-- The early-stopping state carried across evaluation events:
`best_eval_metric` (Python `None` or a float) and `early_stopping_counter`. -/
structure ESState where
  best : Option ℚ
  counter : ℕ
deriving DecidableEq

/-- Whether an evaluation event lets training continue or makes `train`
return (`return global_step, tr_loss / global_step`). -/
inductive ESOutcome where
  | cont (s : ESState)
  | halt
deriving DecidableEq

/-- The observable result of one evaluation event: the control outcome and the
number of `_save_model(args["best_model_dir"], ...)` calls it performed. -/
structure EvalEventResult where
  out : ESOutcome
  bestSaves : ℕ
deriving DecidableEq

/-- Python truthiness of `best_eval_metric` (`None` and `0.0` are falsy). -/
def pyFalsyQ : Option ℚ → Bool
  | none => true
  | some v => decide (v = 0)

/-- One evaluation event of `train` (lines 483-542 for step-level events;
lines 571-618 for epoch-level events, which pass
`use_early_stopping and early_stopping_consider_epochs` as `es`):
re-initialize a falsy `best_eval_metric` (saving a best model when
`save_best_model`), then compare `results[metric] - best` against
`early_stopping_delta` in the configured direction, updating best/counter or
halting when the counter is no longer below `early_stopping_patience`. -/
def evalEvent (mz es sb : Bool) (delta : ℚ) (patience : ℕ)
    (s : ESState) (m : ℚ) : EvalEventResult :=
  let init : Bool := pyFalsyQ s.best
  let best1 : ℚ := if init then m else s.best.getD 0
  let s0 : ℕ := if init && sb then 1 else 0
  if best1 ≠ 0 ∧ mz = true then
    if m - best1 < delta then
      ⟨.cont ⟨some m, 0⟩, s0 + (if sb then 1 else 0)⟩
    else if es = true then
      if s.counter < patience then ⟨.cont ⟨some best1, s.counter + 1⟩, s0⟩
      else ⟨.halt, s0⟩
    else ⟨.cont ⟨some best1, s.counter⟩, s0⟩
  else
    if delta < m - best1 then
      ⟨.cont ⟨some m, 0⟩, s0 + (if sb then 1 else 0)⟩
    else if es = true then
      if s.counter < patience then ⟨.cont ⟨some best1, s.counter + 1⟩, s0⟩
      else ⟨.halt, s0⟩
    else ⟨.cont ⟨some best1, s.counter⟩, s0⟩

/-- The improvement notion in the words of the specification sentence under
review: the new metric is better than the best-seen value by at least the
delta.  Stated only to be compared against `evalEvent`. -/
def specClaimedImprovement (mz : Bool) (delta best m : ℚ) : Prop :=
  if mz then m ≤ best - delta else best + delta ≤ m

/-- The configuration fields of `self.args` that drive the control flow of
`Seq2SeqModel.train`, together with the resume counters the loop starts from. -/
structure TrainConfig where
  num_train_epochs : ℕ
  batchesPerEpoch : ℕ
  gradient_accumulation_steps : ℕ
  evaluate_during_training : Bool
  evaluate_during_training_steps : ℕ
  use_early_stopping : Bool
  early_stopping_metric_minimize : Bool
  early_stopping_delta : ℚ
  early_stopping_patience : ℕ
  early_stopping_consider_epochs : Bool
  save_best_model : Bool
  initialGlobalStep : ℕ
  epochs_trained : ℕ
  steps_trained_in_current_epoch : ℕ

/-- The mutable loop state of `train`: `global_step`, `tr_loss`,
`best_eval_metric`, `early_stopping_counter`, the number of evaluation events
performed so far (used to index the abstract metric stream), and the two
resume skip counters. -/
structure LoopState where
  globalStep : ℕ
  trLoss : ℚ
  best : Option ℚ
  counter : ℕ
  evalIdx : ℕ
  epochsTrained : ℕ
  stepsSkip : ℕ
deriving DecidableEq

/-- Continuation or early return of a piece of the training loop. -/
inductive StepOut where
  | cont (s : LoopState)
  | ret (r : Option (ℕ × ℚ))
deriving DecidableEq

/-- `return global_step, tr_loss / global_step`: `none` models the
`ZeroDivisionError` raised when `global_step` is 0. -/
def finishReturn (s : LoopState) : Option (ℕ × ℚ) :=
  if s.globalStep = 0 then none
  else some (s.globalStep, s.trLoss / (s.globalStep : ℚ))

/-- One iteration of the inner `for step, batch in enumerate(train_dataloader)`
loop (lines 386-542): resume skipping, loss accumulation (divided by
`gradient_accumulation_steps` when it exceeds 1), the optimizer update gate
`(step + 1) % gradient_accumulation_steps == 0` with its `global_step`
increment, and the gated step-level evaluation event. -/
def processBatch (cfg : TrainConfig) (losses : ℕ → ℕ → ℚ) (metrics : ℕ → ℚ)
    (e i : ℕ) (s : LoopState) : StepOut :=
  if 0 < s.stepsSkip then .cont { s with stepsSkip := s.stepsSkip - 1 }
  else
    let rawLoss := losses e i
    let loss :=
      if 1 < cfg.gradient_accumulation_steps then
        rawLoss / (cfg.gradient_accumulation_steps : ℚ)
      else rawLoss
    let s1 := { s with trLoss := s.trLoss + loss }
    if (i + 1) % cfg.gradient_accumulation_steps = 0 then
      let s2 := { s1 with globalStep := s1.globalStep + 1 }
      if cfg.evaluate_during_training = true ∧
          0 < cfg.evaluate_during_training_steps ∧
          s2.globalStep % cfg.evaluate_during_training_steps = 0 then
        let m := metrics s2.evalIdx
        let s3 := { s2 with evalIdx := s2.evalIdx + 1 }
        match (evalEvent cfg.early_stopping_metric_minimize
            cfg.use_early_stopping cfg.save_best_model
            cfg.early_stopping_delta cfg.early_stopping_patience
            ⟨s3.best, s3.counter⟩ m).out with
        | .cont es2 => .cont { s3 with best := es2.best, counter := es2.counter }
        | .halt => .ret (finishReturn s3)
      else .cont s2
    else .cont s1

/-- The epoch-level evaluation event (lines 553-618), whose early-stopping
branch is additionally gated by `early_stopping_consider_epochs`. -/
def processEpochEnd (cfg : TrainConfig) (metrics : ℕ → ℚ) (s : LoopState) :
    StepOut :=
  if cfg.evaluate_during_training = true then
    let m := metrics s.evalIdx
    let s1 := { s with evalIdx := s.evalIdx + 1 }
    match (evalEvent cfg.early_stopping_metric_minimize
        (cfg.use_early_stopping && cfg.early_stopping_consider_epochs)
        cfg.save_best_model cfg.early_stopping_delta
        cfg.early_stopping_patience ⟨s1.best, s1.counter⟩ m).out with
    | .cont es2 => .cont { s1 with best := es2.best, counter := es2.counter }
    | .halt => .ret (finishReturn s1)
  else .cont s

/-- Run the inner loop over the given batch indices of epoch `e`. -/
def runBatches (cfg : TrainConfig) (losses : ℕ → ℕ → ℚ) (metrics : ℕ → ℚ)
    (e : ℕ) : List ℕ → LoopState → StepOut
  | [], s => .cont s
  | i :: rest, s =>
    match processBatch cfg losses metrics e i s with
    | .cont s1 => runBatches cfg losses metrics e rest s1
    | .ret r => .ret r

/-- One iteration of the outer epoch loop (lines 381-618): the
`epochs_trained` resume skip, the inner batch loop, then the epoch-end
evaluation event. -/
def runEpoch (cfg : TrainConfig) (losses : ℕ → ℕ → ℚ) (metrics : ℕ → ℚ)
    (e : ℕ) (s : LoopState) : StepOut :=
  if 0 < s.epochsTrained then .cont { s with epochsTrained := s.epochsTrained - 1 }
  else
    match runBatches cfg losses metrics e (List.range cfg.batchesPerEpoch) s with
    | .cont s1 => processEpochEnd cfg metrics s1
    | .ret r => .ret r

/-- Run the epoch loop over the given epoch indices. -/
def runEpochs (cfg : TrainConfig) (losses : ℕ → ℕ → ℚ) (metrics : ℕ → ℚ) :
    List ℕ → LoopState → StepOut
  | [], s => .cont s
  | e :: rest, s =>
    match runEpoch cfg losses metrics e s with
    | .cont s1 => runEpochs cfg losses metrics rest s1
    | .ret r => .ret r

/-- The loop state `train` starts from after the resume block (lines 342-371). -/
def initialLoopState (cfg : TrainConfig) : LoopState :=
  { globalStep := cfg.initialGlobalStep, trLoss := 0, best := none, counter := 0,
    evalIdx := 0, epochsTrained := cfg.epochs_trained,
    stepsSkip := cfg.steps_trained_in_current_epoch }

/-- `Seq2SeqModel.train` from the start of the epoch loop to one of its
`return global_step, tr_loss / global_step` statements (line 620 when every
epoch is exhausted; lines 515, 542, 596 and 618 for the early-stopping exits). -/
def trainRun (cfg : TrainConfig) (losses : ℕ → ℕ → ℚ) (metrics : ℕ → ℚ) :
    Option (ℕ × ℚ) :=
  match runEpochs cfg losses metrics (List.range cfg.num_train_epochs)
      (initialLoopState cfg) with
  | .cont s => finishReturn s
  | .ret r => r

/-- The configuration used for the early-stopping timing results: one epoch of
`n` batches, no gradient accumulation, an evaluation event at every optimizer
step, minimize mode, early stopping on with patience `P`, delta 0. -/
def c1Cfg (P n : ℕ) : TrainConfig :=
  { num_train_epochs := 1, batchesPerEpoch := n,
    gradient_accumulation_steps := 1, evaluate_during_training := true,
    evaluate_during_training_steps := 1, use_early_stopping := true,
    early_stopping_metric_minimize := true, early_stopping_delta := 0,
    early_stopping_patience := P, early_stopping_consider_epochs := false,
    save_best_model := false, initialGlobalStep := 0, epochs_trained := 0,
    steps_trained_in_current_epoch := 0 }

/-- A metric stream that strictly decreases for the first `k + 1` evaluation
events and stays flat afterwards. -/
def c1Metric (v : ℕ → ℚ) (k : ℕ) (j : ℕ) : ℚ := v (min j k)

/-- Closed form of `best_eval_metric` before the `j`-th evaluation event of a
`c1Cfg` run on a `c1Metric` stream. -/
def c1Best (v : ℕ → ℚ) (k j : ℕ) : Option ℚ :=
  if j = 0 then none else some (v (min (j - 1) k))

/-- Closed form of `early_stopping_counter` before the `j`-th evaluation event
of a `c1Cfg` run on a `c1Metric` stream. -/
def c1Counter (k j : ℕ) : ℕ :=
  if j = 0 then 0 else if j = 1 then 1 else if j ≤ k + 1 then 0 else j - 1 - k

/-- The loop state just before batch `j` of a `c1Cfg` run. -/
def c1State (v : ℕ → ℚ) (k j : ℕ) (t : ℚ) : LoopState :=
  { globalStep := j, trLoss := t, best := c1Best v k j, counter := c1Counter k j,
    evalIdx := j, epochsTrained := 0, stepsSkip := 0 }

/-- A concrete strictly-decreasing-then-flat metric source: 10, 9, 8, 8, ... -/
def c1Vals : ℕ → ℚ :=
  fun j => if j = 0 then 10 else if j = 1 then 9 else 8

/-- A configuration with `num_train_epochs = 0`: the loop body never runs. -/
def c10CfgA : TrainConfig :=
  { num_train_epochs := 0, batchesPerEpoch := 3,
    gradient_accumulation_steps := 1, evaluate_during_training := false,
    evaluate_during_training_steps := 2000, use_early_stopping := true,
    early_stopping_metric_minimize := true, early_stopping_delta := 0,
    early_stopping_patience := 3, early_stopping_consider_epochs := false,
    save_best_model := false, initialGlobalStep := 0, epochs_trained := 0,
    steps_trained_in_current_epoch := 0 }

/-- A configuration whose `gradient_accumulation_steps` exceeds the number of
batches per epoch: no optimizer update ever occurs. -/
def c10CfgB : TrainConfig :=
  { num_train_epochs := 1, batchesPerEpoch := 3,
    gradient_accumulation_steps := 5, evaluate_during_training := false,
    evaluate_during_training_steps := 2000, use_early_stopping := true,
    early_stopping_metric_minimize := true, early_stopping_delta := 0,
    early_stopping_patience := 3, early_stopping_consider_epochs := false,
    save_best_model := false, initialGlobalStep := 0, epochs_trained := 0,
    steps_trained_in_current_epoch := 0 }

/-! ### Helper lemmas -/

theorem splitOnChar_ne_nil (c : Char) (l : List Char) : splitOnChar c l ≠ [] := by
  cases l with
  | nil => simp [splitOnChar]
  | cons x t =>
    rcases h : splitOnChar c t with _ | ⟨hd, tl⟩ <;> simp [splitOnChar, h] <;> split <;> simp

theorem splitOnChar_of_not_mem {c : Char} {l : List Char} (h : c ∉ l) :
    splitOnChar c l = [l] := by
  induction l with
  | nil => rfl
  | cons x t ih =>
    have hx : x ≠ c := fun hc => h (hc ▸ List.mem_cons_self x t)
    have ht : c ∉ t := fun hc => h (List.mem_cons_of_mem x hc)
    simp [splitOnChar, ih ht, hx]

theorem splitOnChar_append {c : Char} {a b : List Char} (h : c ∉ a) :
    splitOnChar c (a ++ c :: b) = a :: splitOnChar c b := by
  induction a with
  | nil =>
    rcases hq : splitOnChar c b with _ | ⟨h0, t0⟩
    · exact absurd hq (splitOnChar_ne_nil c b)
    · simp [splitOnChar, hq]
  | cons x a2 ih =>
    have hx : x ≠ c := fun hc => h (hc ▸ List.mem_cons_self x a2)
    have ha : c ∉ a2 := fun hc => h (List.mem_cons_of_mem x hc)
    simp [splitOnChar, ih ha, hx]

theorem digit_ne_slash {c : Char} (h : c.isDigit = true) : c ≠ '/' := by
  intro h2; subst h2; exact absurd h (by decide)

theorem digit_ne_dash {c : Char} (h : c.isDigit = true) : c ≠ '-' := by
  intro h2; subst h2; exact absurd h (by decide)

/-! ### C3: resume detection -/

/-- Claim C3 (corrected): for a checkpoint name of the shape
`<stem>-<digits>` whose stem contains no `/` and no `-` (so the final path
component splits on `-` into exactly two parts), the resumed global step is the
value of the digit string, `epochs_trained` is that value integer-divided by
`batches-per-epoch // gradient_accumulation_steps`, and
`steps_trained_in_current_epoch` is the value modulo the same quotient
(provided that quotient is positive, since the code would otherwise raise an
uncaught `ZeroDivisionError`); and for any name whose chosen candidate part is
not a digit string, the resume logic silently falls back to a cold start at
global step 0.  The original claim, keyed on the name merely ending in `-<N>`,
is refuted by `claim_C3_counterexample`. -/
theorem claim_C3 :
    (∀ (pre d1 : List Char) (bpe gas : ℕ),
       '/' ∉ pre → '-' ∉ pre → d1 ≠ [] → (∀ ch ∈ d1, ch.isDigit) →
       0 < bpe / gas →
       resumeTriple (pre ++ '-' :: d1) bpe gas =
         some (valOfDigits d1, valOfDigits d1 / (bpe / gas),
               valOfDigits d1 % (bpe / gas)))
  ∧ (∀ (name : List Char) (bpe gas : ℕ),
       parsePyNat (checkpointCandidate name) = none →
       resumeTriple name bpe gas = some (0, 0, 0)) := by
  constructor
  · intro pre d1 bpe gas h1 h2 h3 h4 h5
    have hd1 : '-' ∉ d1 := fun hm => digit_ne_dash (h4 _ hm) rfl
    have hslash : '/' ∉ pre ++ '-' :: d1 := by
      intro hmem
      rcases List.mem_append.mp hmem with hc | hc
      · exact h1 hc
      · rcases List.mem_cons.mp hc with hc2 | hc2
        · exact absurd hc2.symm (by decide)
        · exact digit_ne_slash (h4 _ hc2) rfl
    have hlast : lastComponent (pre ++ '-' :: d1) = pre ++ '-' :: d1 := by
      simp [lastComponent, splitOnChar_of_not_mem hslash]
    have hparts : splitOnChar '-' (pre ++ '-' :: d1) = [pre, d1] := by
      rw [splitOnChar_append h2, splitOnChar_of_not_mem hd1]
    have hcand : checkpointCandidate (pre ++ '-' :: d1) = d1 := by
      simp [checkpointCandidate, hlast, hparts]
    have hq : ¬ bpe / gas = 0 := by omega
    simp [resumeTriple, hcand, parsePyNat, h3, h4, hq]
    rw [if_pos h4]
  · intro name bpe gas hp
    simp [resumeTriple, hp]

/-- Witness for C3: the name `checkpoint-2000` resumes at global step 2000 with
`epochs_trained = 2000 / (10 / 1)` and the matching remainder. -/
theorem claim_C3_witness :
    resumeTriple ("checkpoint".data ++ '-' :: "2000".data) 10 1 =
      some (valOfDigits "2000".data, valOfDigits "2000".data / (10 / 1),
            valOfDigits "2000".data % (10 / 1))
  ∧ valOfDigits "2000".data = 2000 :=
  ⟨claim_C3.1 "checkpoint".data "2000".data 10 1 (by decide) (by decide)
    (by decide) (by decide) (by decide), by decide⟩

/-- Counterexample for C3 as stated: `outputs/checkpoint-2000-epoch-4` ends in
`-4`, yet the code resumes at global step 2000 (it takes the second
dash-separated part when there are more than two parts), not 4; and
`my-model-5` ends in `-5` yet silently cold-starts at 0 because the chosen
candidate part is the non-numeric `model`. -/
theorem claim_C3_counterexample :
    resumeStep "outputs/checkpoint-2000-epoch-4" 10 1 = some (2000, 200, 0)
  ∧ "outputs/checkpoint-2000-epoch-4" = "outputs/checkpoint-2000-epoch" ++ "-4"
  ∧ (2000 : ℕ) ≠ 4
  ∧ resumeStep "my-model-5" 10 1 = some (0, 0, 0)
  ∧ "my-model-5" = "my-model" ++ "-5" := by
  refine ⟨by decide, rfl, by decide, by decide, rfl⟩

/-! ### C10: division by zero at the final return -/

/-- Claim C10 (code bug): `train` does not guarantee a positive `global_step`
at its return statements.  With `num_train_epochs = 0` the epoch loop body
never runs, and with `gradient_accumulation_steps = 5` over 3 batches per
epoch no optimizer update ever occurs; in both cases line 620 evaluates
`tr_loss / global_step` with `global_step = 0`, raising `ZeroDivisionError`
(modelled as `none`). -/
theorem claim_C10 :
    trainRun c10CfgA (fun _ _ => 1) (fun _ => 1) = none
  ∧ trainRun c10CfgB (fun _ _ => 1) (fun _ => 1) = none := by
  constructor
  · rfl
  · norm_num [trainRun, runEpochs, runEpoch, runBatches, processBatch,
      finishReturn, c10CfgB, initialLoopState, processEpochEnd, List.range_succ]

/-! ### C2: the improvement comparison -/

/-- Claim C2 (corrected): with a truthy (non-zero) best value, an evaluation
event counts as an improvement iff `new - best < delta` in minimize mode and
iff `new - best > delta` in maximize mode (NOT iff the new value is better by
at least delta); on improvement the best value becomes the new metric and the
counter resets to 0; on non-improvement the counter is incremented only when
`use_early_stopping` holds and the counter is still below the patience,
halting otherwise; without `use_early_stopping` nothing changes. -/
theorem claim_C2 (mz es sb : Bool) (delta : ℚ) (p : ℕ) (b m : ℚ) (c : ℕ)
    (hb : b ≠ 0) :
    ((if mz = true then m - b < delta else delta < m - b) →
       evalEvent mz es sb delta p ⟨some b, c⟩ m =
         ⟨.cont ⟨some m, 0⟩, if sb = true then 1 else 0⟩)
  ∧ (¬ (if mz = true then m - b < delta else delta < m - b) → es = true →
       c < p → evalEvent mz es sb delta p ⟨some b, c⟩ m =
         ⟨.cont ⟨some b, c + 1⟩, 0⟩)
  ∧ (¬ (if mz = true then m - b < delta else delta < m - b) → es = true →
       ¬ c < p → evalEvent mz es sb delta p ⟨some b, c⟩ m = ⟨.halt, 0⟩)
  ∧ (¬ (if mz = true then m - b < delta else delta < m - b) → es = false →
       evalEvent mz es sb delta p ⟨some b, c⟩ m = ⟨.cont ⟨some b, c⟩, 0⟩) := by
  cases mz with
  | true =>
    refine ⟨fun h => ?_, fun h h2 h3 => ?_, fun h h2 h3 => ?_, fun h h2 => ?_⟩ <;>
      rw [if_pos rfl] at h
    · simp [evalEvent, pyFalsyQ, hb, h]
    · simp [evalEvent, pyFalsyQ, hb, h, h2, h3]
    · simp [evalEvent, pyFalsyQ, hb, h, h2, h3]
    · simp [evalEvent, pyFalsyQ, hb, h, h2]
  | false =>
    refine ⟨fun h => ?_, fun h h2 h3 => ?_, fun h h2 h3 => ?_, fun h h2 => ?_⟩ <;>
      rw [if_neg Bool.false_ne_true] at h
    · simp [evalEvent, pyFalsyQ, hb, h]
    · simp [evalEvent, pyFalsyQ, hb, h, h2, h3]
    · simp [evalEvent, pyFalsyQ, hb, h, h2, h3]
    · simp [evalEvent, pyFalsyQ, hb, h, h2]

/-- Witness for C2: best 10, new 9, delta 0, minimize: an improvement, best
updated to 9 and counter reset. -/
theorem claim_C2_witness :
    evalEvent true true false 0 3 ⟨some 10, 0⟩ 9 =
      ⟨.cont ⟨some 9, 0⟩, if false = true then 1 else 0⟩ :=
  (claim_C2 true true false 0 3 10 9 0 (by norm_num)).1 (by norm_num)

/-- Counterexample for C2 as stated: in minimize mode with best 10 and
delta 1, the strictly worse new value 21/2 is treated as an improvement (best
is overwritten with 21/2 and the counter reset), although it is not better
than the best by at least delta as the claim requires. -/
theorem claim_C2_counterexample :
    evalEvent true true false 1 3 ⟨some 10, 0⟩ (21 / 2) =
      ⟨.cont ⟨some (21 / 2), 0⟩, 0⟩
  ∧ ¬ specClaimedImprovement true 1 10 (21 / 2)
  ∧ (10 : ℚ) < 21 / 2 := by
  refine ⟨by norm_num [evalEvent, pyFalsyQ], ?_, by norm_num⟩
  norm_num [specClaimedImprovement]

/-! ### C9: the falsy-best re-initialization -/

/-- Claim C9 (corrected): at an evaluation event whose stored best value is
falsy (`None` or `0.0`), `best_eval_metric` is overwritten with the current
metric and a best-model save happens exactly when `save_best_model` is set;
but the event then falls through to the ordinary comparison against the
re-initialized best, behaving exactly like an event whose best value had been
the current metric all along — so the early-stopping counter CAN be
incremented at that event (see `claim_C9_counterexample`). -/
theorem claim_C9 (mz es sb : Bool) (delta : ℚ) (p : ℕ) (b : Option ℚ) (c : ℕ)
    (m : ℚ) (hb : pyFalsyQ b = true) :
    (evalEvent mz es sb delta p ⟨b, c⟩ m).out =
      (evalEvent mz es sb delta p ⟨some m, c⟩ m).out
  ∧ (sb = true → 1 ≤ (evalEvent mz es sb delta p ⟨b, c⟩ m).bestSaves)
  ∧ (sb = false → (evalEvent mz es sb delta p ⟨b, c⟩ m).bestSaves = 0) := by
  refine ⟨?_, fun hsb => ?_, fun hsb => ?_⟩
  · simp only [evalEvent, hb, if_true, Option.getD_some, ite_self,
      apply_ite EvalEventResult.out]
  · simp only [evalEvent, hb, hsb, if_true, Bool.and_true,
      apply_ite EvalEventResult.bestSaves]
    repeat' split
    all_goals simp_all
  · simp only [evalEvent, hb, hsb, if_true, Bool.and_false, if_false,
      apply_ite EvalEventResult.bestSaves]
    repeat' split
    all_goals simp_all

/-- Witness for C9: with best 0.0 (falsy) and metric 5, the event behaves like
one whose best had been 5. -/
theorem claim_C9_witness :
    pyFalsyQ (some (0 : ℚ)) = true
  ∧ (evalEvent true true true 0 5 ⟨some 0, 0⟩ 5).out =
      (evalEvent true true true 0 5 ⟨some 5, 0⟩ 5).out :=
  ⟨by decide, (claim_C9 true true true 0 5 (some 0) 0 5 (by decide)).1⟩

/-- Counterexample for C9 as stated: with best 0.0 (falsy), metric 5,
minimize, delta 0 and patience 5, the best is re-initialized to 5 and the
best model saved, but the counter IS incremented (to 1) at that same event,
contradicting the claim that it is not. -/
theorem claim_C9_counterexample :
    evalEvent true true true 0 5 ⟨some 0, 0⟩ 5 = ⟨.cont ⟨some 5, 1⟩, 1⟩
  ∧ (1 : ℕ) ≠ 0 := by
  refine ⟨by norm_num [evalEvent, pyFalsyQ], by decide⟩

/-! ### C8: the training progress table -/

theorem appendToKey_keys (t : List (String × List ℚ)) (k : String) (v : ℚ) :
    (appendToKey t k v).map Prod.fst = t.map Prod.fst := by
  induction t with
  | nil => rfl
  | cons p rest ih =>
    simp only [appendToKey, List.map_cons] at ih ⊢
    rw [ih]
    split <;> rfl

theorem appendToKey_mem {t : List (String × List ℚ)} {k : String} {ls : List ℚ}
    (h : (k, ls) ∈ t) (k0 : String) (v : ℚ) :
    (k, if k = k0 then ls ++ [v] else ls) ∈ appendToKey t k0 v := by
  induction t with
  | nil => cases h
  | cons p rest ih =>
    rcases List.mem_cons.mp h with h1 | h1
    · subst h1
      simp only [appendToKey, List.map_cons]
      by_cases hk : k = k0 <;> simp [hk]
    · simp only [appendToKey, List.map_cons]
      exact List.mem_cons_of_mem _ (ih h1)

theorem foldl_appendToKey_keys (res : List (String × ℚ)) :
    ∀ t, ((res.foldl (fun acc kv => appendToKey acc kv.1 kv.2) t).map Prod.fst)
      = t.map Prod.fst := by
  induction res with
  | nil => intro t; rfl
  | cons kv rest ih =>
    intro t
    simp only [List.foldl_cons]
    rw [ih, appendToKey_keys]

theorem foldl_appendToKey_mem (res : List (String × ℚ)) :
    ∀ (t : List (String × List ℚ)) (k : String) (ls : List ℚ), (k, ls) ∈ t →
      ∃ ls2, (k, ls2) ∈ res.foldl (fun acc kv => appendToKey acc kv.1 kv.2) t ∧
        ls2.length = ls.length + (res.map Prod.fst).count k := by
  induction res with
  | nil => intro t k ls h; exact ⟨ls, h, by simp⟩
  | cons kv rest ih =>
    intro t k ls h
    obtain ⟨ls2, h2, hlen⟩ := ih (appendToKey t kv.1 kv.2) k
      (if k = kv.1 then ls ++ [kv.2] else ls) (appendToKey_mem h kv.1 kv.2)
    refine ⟨ls2, by simpa using h2, ?_⟩
    rw [hlen]
    by_cases hk : k = kv.1 <;>
      simp [hk, List.count_cons, beq_iff_eq] <;> omega

/-- Claim C8 (corrected): the columns of `training_progress_scores.csv` are, in
order, `global_step`, `eval_loss`, `train_loss`, then the extra caller-supplied
metric names — NOT `global_step, train_loss, eval_loss, ...` as stated (see
`claim_C8_counterexample`); each evaluation event preserves the column set and
appends exactly one value per targeted column: one to `global_step`, one to
`train_loss`, and one per key occurrence in the evaluation `results`. -/
theorem claim_C8 :
    (∀ extras, trainingProgressColumns extras =
       ["global_step", "eval_loss", "train_loss"] ++ extras)
  ∧ (∀ t gs tl res, (appendProgressRow t gs tl res).map Prod.fst = t.map Prod.fst)
  ∧ (∀ (t : List (String × List ℚ)) (gs tl : ℚ) (res : List (String × ℚ))
       (k : String) (ls : List ℚ), (k, ls) ∈ t →
       ∃ ls2, (k, ls2) ∈ appendProgressRow t gs tl res ∧
         ls2.length = ls.length +
           ((if k = "global_step" then 1 else 0) +
            (if k = "train_loss" then 1 else 0) +
            (res.map Prod.fst).count k)) := by
  refine ⟨fun extras => rfl, fun t gs tl res => ?_, ?_⟩
  · unfold appendProgressRow
    rw [foldl_appendToKey_keys, appendToKey_keys, appendToKey_keys]
  · intro t gs tl res k ls h
    have h1 := appendToKey_mem h "global_step" gs
    have h2 := appendToKey_mem h1 "train_loss" tl
    obtain ⟨ls2, hmem, hlen⟩ := foldl_appendToKey_mem res _ k _ h2
    refine ⟨ls2, hmem, ?_⟩
    rw [hlen]
    by_cases ha : k = "global_step" <;> by_cases hb : k = "train_loss" <;>
      simp [ha, hb] <;> omega

/-- Witness for C8: appending one evaluation event's row to the canonical
two-extra-column table grows the `eval_loss` column by one entry. -/
theorem claim_C8_witness :
    ∃ ls2, ("eval_loss", ls2) ∈
        appendProgressRow
          [("global_step", []), ("eval_loss", []), ("train_loss", [])]
          1 2 [("eval_loss", 3)] ∧
      ls2.length = ([] : List ℚ).length +
        ((if "eval_loss" = "global_step" then 1 else 0) +
         (if "eval_loss" = "train_loss" then 1 else 0) +
         ([("eval_loss", (3 : ℚ))].map Prod.fst).count "eval_loss") :=
  claim_C8.2.2 [("global_step", []), ("eval_loss", []), ("train_loss", [])]
    1 2 [("eval_loss", 3)] "eval_loss" [] (by simp)

/-- Counterexample for C8 as stated: the column order written by
`_create_training_progress_scores` puts `eval_loss` before `train_loss`,
contradicting the claimed `global_step, train_loss, eval_loss, ...` order. -/
theorem claim_C8_counterexample :
    trainingProgressColumns ["bleu"] =
      ["global_step", "eval_loss", "train_loss", "bleu"]
  ∧ trainingProgressColumns ["bleu"] ≠
      ["global_step", "train_loss", "eval_loss", "bleu"] := by
  refine ⟨rfl, by decide⟩

/-! ### C7: configuration mutation by `train` -/

/-- Claim C7 (corrected): the pre-loop writes of `train` leave every
configuration key unchanged except `warmup_steps` — which is overwritten with
`ceil(t_total * warmup_ratio)` exactly when it was 0 — AND, contrary to the
claim, also `num_train_epochs`, which is recomputed whenever `max_steps > 0`
(see `claim_C7_counterexample`). -/
theorem claim_C7 (dlLen : ℤ) (a : TrainHyperArgs) :
    ((applyTrainArgMutations dlLen a).other = a.other)
  ∧ ((applyTrainArgMutations dlLen a).max_steps = a.max_steps)
  ∧ ((applyTrainArgMutations dlLen a).gradient_accumulation_steps =
       a.gradient_accumulation_steps)
  ∧ ((applyTrainArgMutations dlLen a).warmupFrac = a.warmupFrac)
  ∧ (a.max_steps ≤ 0 →
       (applyTrainArgMutations dlLen a).num_train_epochs = a.num_train_epochs)
  ∧ (a.warmup_steps ≠ 0 →
       (applyTrainArgMutations dlLen a).warmup_steps = a.warmup_steps)
  ∧ (a.warmup_steps = 0 →
       (applyTrainArgMutations dlLen a).warmup_steps =
         Int.ceil ((((if 0 < a.max_steps then a.max_steps
           else dlLen.fdiv a.gradient_accumulation_steps * a.num_train_epochs) :
             ℤ) : ℚ) * a.warmupFrac)) := by
  refine ⟨?_, ?_, ?_, ?_, fun h => ?_, fun h => ?_, fun h => ?_⟩ <;>
    simp only [applyTrainArgMutations] <;> split_ifs <;>
    simp_all <;> omega

/-- Witness for C7: a concrete configuration with `max_steps ≤ 0` keeps
`num_train_epochs` and a non-zero `warmup_steps`. -/
theorem claim_C7_witness :
    (applyTrainArgMutations 4
        ⟨-1, 2, 1, 0, 7, fun _ => none⟩).num_train_epochs = (2 : ℤ)
  ∧ (applyTrainArgMutations 4
        ⟨-1, 2, 1, 0, 7, fun _ => none⟩).warmup_steps = (7 : ℤ) :=
  ⟨(claim_C7 4 ⟨-1, 2, 1, 0, 7, fun _ => none⟩).2.2.2.2.1 (by norm_num),
   (claim_C7 4 ⟨-1, 2, 1, 0, 7, fun _ => none⟩).2.2.2.2.2.1 (by norm_num)⟩

/-- Counterexample for C7 as stated: with `max_steps = 10`, 4 batches and
accumulation 1, the training loop rewrites `num_train_epochs` from 1 to
`10 // 4 + 1 = 3`, so `warmup_steps` is not the only key the loop modifies. -/
theorem claim_C7_counterexample :
    (applyTrainArgMutations 4 ⟨10, 1, 1, 0, 7, fun _ => none⟩).num_train_epochs
      = (3 : ℤ)
  ∧ (3 : ℤ) ≠ 1 := by
  refine ⟨by norm_num [applyTrainArgMutations, Int.fdiv], by decide⟩

/-! ### C5: predictor order preservation -/

theorem chunkList_flatten {α : Type} (b : ℕ) (xs : List α) :
    (chunkList (b + 1) xs).flatten = xs := by
  have H : ∀ (n : ℕ) (ys : List α), ys.length ≤ n →
      (chunkList (b + 1) ys).flatten = ys := by
    intro n
    induction n with
    | zero =>
      intro ys h
      cases ys with
      | nil => simp [chunkList]
      | cons x t => simp at h
    | succ n ih =>
      intro ys h
      cases ys with
      | nil => simp [chunkList]
      | cons x t =>
        rw [chunkList]
        simp only [List.flatten_cons]
        rw [ih _ (by simp only [List.length_drop, List.length_cons]; simp only [List.length_cons] at h; omega)]
        exact List.take_append_drop _ _
  exact H xs.length xs le_rfl

theorem chunkList_length_le {α : Type} (b : ℕ) (xs : List α) :
    ∀ ch ∈ chunkList (b + 1) xs, ch.length ≤ b + 1 := by
  have H : ∀ (n : ℕ) (ys : List α), ys.length ≤ n →
      ∀ ch ∈ chunkList (b + 1) ys, ch.length ≤ b + 1 := by
    intro n
    induction n with
    | zero =>
      intro ys h
      cases ys with
      | nil => simp [chunkList]
      | cons x t => simp at h
    | succ n ih =>
      intro ys h
      cases ys with
      | nil => simp [chunkList]
      | cons x t =>
        rw [chunkList]
        intro ch hch
        rcases List.mem_cons.mp hch with h1 | h1
        · subst h1; simp
        · exact ih _ (by simp only [List.length_drop, List.length_cons]; simp only [List.length_cons] at h; omega) ch h1
  exact H xs.length xs le_rfl

theorem chunkMap_flatten {α β : Type} (g : α → β) (b : ℕ) (xs : List α) :
    ((chunkList (b + 1) xs).map (fun batch => batch.map g)).flatten = xs.map g := by
  have H : ∀ (n : ℕ) (ys : List α), ys.length ≤ n →
      ((chunkList (b + 1) ys).map (fun batch => batch.map g)).flatten =
        ys.map g := by
    intro n
    induction n with
    | zero =>
      intro ys h
      cases ys with
      | nil => simp [chunkList]
      | cons x t => simp at h
    | succ n ih =>
      intro ys h
      cases ys with
      | nil => simp [chunkList]
      | cons x t =>
        rw [chunkList]
        simp only [List.map_cons, List.flatten_cons]
        rw [ih _ (by simp only [List.length_drop, List.length_cons]; simp only [List.length_cons] at h; omega)]
        rw [← List.map_append, List.take_append_drop]
        simp
  exact H xs.length xs le_rfl

theorem foldl_append_map {α β : Type} (f : α → List β) (l : List α) :
    ∀ acc : List β,
      l.foldl (fun a x => a ++ f x) acc = acc ++ (l.map f).flatten := by
  induction l with
  | nil => intro acc; simp
  | cons x t ih => intro acc; simp [ih]

/-- Claim C5 (confirmed): for a positive batch size, `predict` splits its
input into consecutive batches of at most `eval_batch_size` strings whose
concatenation is the input list in order, and returns exactly one decoded
generation per input, the `i`-th output being the decode of the generation for
the `i`-th input. -/
theorem claim_C5 (encode : String → List ℕ) (gen : List ℕ → List ℕ)
    (dec : List ℕ → String) (B : ℕ) (xs : List String) (hB : 0 < B) :
    (chunkList B xs).flatten = xs
  ∧ (∀ ch ∈ chunkList B xs, ch.length ≤ B)
  ∧ predictPipeline encode gen dec B xs = xs.map (fun s => dec (gen (encode s)))
  ∧ (predictPipeline encode gen dec B xs).length = xs.length := by
  obtain ⟨b, rfl⟩ : ∃ b, B = b + 1 := ⟨B - 1, by omega⟩
  have hmain : predictPipeline encode gen dec (b + 1) xs =
      xs.map (fun s => dec (gen (encode s))) := by
    unfold predictPipeline
    rw [foldl_append_map]
    simp only [List.nil_append]
    rw [chunkMap_flatten]
    simp [List.map_map, Function.comp]
  exact ⟨chunkList_flatten b xs, chunkList_length_le b xs, hmain,
    by rw [hmain]; simp⟩

/-- Witness for C5: batch size 2 over three inputs. -/
theorem claim_C5_witness :
    (chunkList 2 ["a", "bb", "c"]).flatten = ["a", "bb", "c"]
  ∧ predictPipeline (fun s => [s.length]) (fun l => l) (fun l => toString l)
      2 ["a", "bb", "c"] =
      ["a", "bb", "c"].map (fun s => toString [s.length]) :=
  ⟨(claim_C5 (fun s => [s.length]) (fun l => l) (fun l => toString l)
      2 ["a", "bb", "c"] (by norm_num)).1,
   (claim_C5 (fun s => [s.length]) (fun l => l) (fun l => toString l)
      2 ["a", "bb", "c"] (by norm_num)).2.2.1⟩

/-! ### C6: configuration merging at construction -/

/-- Claim C6 (corrected): whenever `__init__` completes without raising, for
every key other than `model_name`, `model_type`, `fp16` and `wandb_project`
the configuration at the end of construction is the built-in defaults
overridden first by the global shared defaults and then by the caller dict,
each key-by-key, and a key mentioned in no override keeps its built-in
default; the four excluded keys can be overwritten afterwards by the
constructor itself — unconditionally so for `model_name` and `model_type`
(see `claim_C6_counterexample`).  Argument combinations the constructor
rejects (missing names, missing types, CUDA unavailable, unknown registry
key, missing `wandb_project` key) produce no configuration at all. -/
theorem claim_C6 (ga user : String → Option PyVal) (hasConfig uc ca wa : Bool)
    (edt et edn en dn : Option String) (k : String)
    (h1 : k ≠ "model_name") (h2 : k ≠ "model_type") (h3 : k ≠ "fp16")
    (h4 : k ≠ "wandb_project") :
    (∀ f, constructedArgs ga user true hasConfig uc ca wa edt et edn en dn =
        some f →
       f k =
         match user k with
         | some v => some v
         | none =>
           match ga k with
           | some v => some v
           | none => builtinSeq2SeqDefaults k)
  ∧ (∀ f, constructedArgs ga user false hasConfig uc ca wa edt et edn en dn =
        some f →
       f k =
         match ga k with
         | some v => some v
         | none => builtinSeq2SeqDefaults k) := by
  constructor <;>
  · intro f hf
    simp only [constructedArgs] at hf
    repeat' split at hf
    all_goals try exact Option.noConfusion hf
    all_goals injection hf with hfe
    all_goals subst hfe
    all_goals simp only [constructedArgsOk, mergedArgs]
    all_goals split_ifs <;> first
      | contradiction
      | simp [setKey, dictUpdate, h1, h2, h3, h4]

/-- Witness for C6: a completing construction (`encoder_decoder_type = bart`,
`encoder_decoder_name = foo`, no CUDA, `wandb_project` provided by the global
defaults) in which the key `do_sample` keeps its built-in default `False`. -/
theorem claim_C6_witness :
    (constructedArgs c6GlobalArgs c6User true false false false true
        (some "bart") none (some "foo") none none).map
      (fun f => f "do_sample") = some (some (PyVal.vbool false)) := by
  have hq : constructedArgs c6GlobalArgs c6User true false false false true
      (some "bart") none (some "foo") none none =
      some (constructedArgsOk c6GlobalArgs c6User true false true
        (some "bart") none (some "foo") none none) := rfl
  have h := (claim_C6 c6GlobalArgs c6User false false false true
    (some "bart") none (some "foo") none none "do_sample" (by decide)
    (by decide) (by decide) (by decide)).1 _ hq
  rw [hq, Option.map_some', h]
  decide

/-- Counterexample for C6 as stated: on a construction the code completes
(`encoder_decoder_type = bart`, `encoder_decoder_name = foo`, `use_cuda`
off, wandb available, `wandb_project` defined by the global defaults), a
caller override of `model_name` does not survive — `__init__` unconditionally
overwrites `model_name` from its name arguments (lines 194-199), so the
effective configuration at the end of construction is NOT the three-layer
merge on that key. -/
theorem claim_C6_counterexample :
    (constructedArgs c6GlobalArgs c6User true false false false true
        (some "bart") none (some "foo") none none).map
      (fun f => f "model_name") = some (some (PyVal.vstr "foo"))
  ∧ c6User "model_name" = some (PyVal.vstr "x")
  ∧ some (PyVal.vstr "foo") ≠ some (PyVal.vstr "x") := by
  refine ⟨by decide, by decide, by decide⟩

/-! ### C4: gradient accumulation -/

/-- Claim C4 (confirmed): on a non-skipped batch with
`gradient_accumulation_steps > 1`, the global step counter is incremented
exactly on batches whose index satisfies
`(step + 1) % gradient_accumulation_steps == 0` (also when that batch's
evaluation event stops training), and on no other batch. -/
theorem claim_C4 (cfg : TrainConfig) (losses : ℕ → ℕ → ℚ) (metrics : ℕ → ℚ)
    (e i : ℕ) (s : LoopState)
    (hg : 1 < cfg.gradient_accumulation_steps) (hs : s.stepsSkip = 0) :
    ((i + 1) % cfg.gradient_accumulation_steps = 0 →
       (∀ s1, processBatch cfg losses metrics e i s = StepOut.cont s1 →
          s1.globalStep = s.globalStep + 1)
       ∧ (∀ r, processBatch cfg losses metrics e i s = StepOut.ret r →
          ∃ s3, r = finishReturn s3 ∧ s3.globalStep = s.globalStep + 1))
  ∧ ((i + 1) % cfg.gradient_accumulation_steps ≠ 0 →
       ∃ s1, processBatch cfg losses metrics e i s = StepOut.cont s1 ∧
         s1.globalStep = s.globalStep) := by
  constructor
  · intro hdiv
    constructor
    · intro s1 h
      simp only [processBatch, hs, lt_self_iff_false, if_false, hdiv, if_pos] at h
      split at h
      · split at h
        · cases h; rfl
        · simp at h
      · cases h; rfl
    · intro r h
      simp only [processBatch, hs, lt_self_iff_false, if_false, hdiv, if_pos] at h
      split at h
      · split at h
        · simp at h
        · cases h; exact ⟨_, rfl, rfl⟩
      · simp at h
  · intro hdiv
    simp only [processBatch, hs, lt_self_iff_false, if_false, if_neg hdiv]
    exact ⟨_, rfl, rfl⟩

/-- Witness for C4: with accumulation 2, batch index 0 (first of a pair) does
not advance the step and batch index 1 does. -/
theorem claim_C4_witness :
    ∃ s1, processBatch
        { num_train_epochs := 1, batchesPerEpoch := 2,
          gradient_accumulation_steps := 2, evaluate_during_training := false,
          evaluate_during_training_steps := 2000, use_early_stopping := false,
          early_stopping_metric_minimize := true, early_stopping_delta := 0,
          early_stopping_patience := 3, early_stopping_consider_epochs := false,
          save_best_model := false, initialGlobalStep := 0, epochs_trained := 0,
          steps_trained_in_current_epoch := 0 }
        (fun _ _ => 1) (fun _ => 1) 0 0
        { globalStep := 0, trLoss := 0, best := none, counter := 0,
          evalIdx := 0, epochsTrained := 0, stepsSkip := 0 } =
        StepOut.cont s1 ∧ s1.globalStep = 0 :=
  (claim_C4 _ (fun _ _ => 1) (fun _ => 1) 0 0 _ (by norm_num) rfl).2 (by norm_num)

/-! ### Infrastructure for the loop-shape and early-stopping results -/

theorem runBatches_cons_cont {cfg : TrainConfig} {losses : ℕ → ℕ → ℚ}
    {metrics : ℕ → ℚ} {e i : ℕ} {rest : List ℕ} {s s1 : LoopState}
    (h : processBatch cfg losses metrics e i s = StepOut.cont s1) :
    runBatches cfg losses metrics e (i :: rest) s =
      runBatches cfg losses metrics e rest s1 := by
  simp [runBatches, h]

theorem runBatches_cons_ret {cfg : TrainConfig} {losses : ℕ → ℕ → ℚ}
    {metrics : ℕ → ℚ} {e i : ℕ} {rest : List ℕ} {s : LoopState}
    {r : Option (ℕ × ℚ)}
    (h : processBatch cfg losses metrics e i s = StepOut.ret r) :
    runBatches cfg losses metrics e (i :: rest) s = StepOut.ret r := by
  simp [runBatches, h]

theorem processBatch_shape (cfg : TrainConfig) (losses : ℕ → ℕ → ℚ)
    (metrics : ℕ → ℚ) (e i : ℕ) (s : LoopState) :
    (∃ s1, processBatch cfg losses metrics e i s = StepOut.cont s1)
  ∨ (∃ s3, processBatch cfg losses metrics e i s =
      StepOut.ret (finishReturn s3)) := by
  simp only [processBatch]
  repeat' split
  all_goals first
    | exact Or.inl ⟨_, rfl⟩
    | exact Or.inr ⟨_, rfl⟩

theorem processEpochEnd_shape (cfg : TrainConfig) (metrics : ℕ → ℚ)
    (s : LoopState) :
    (∃ s1, processEpochEnd cfg metrics s = StepOut.cont s1)
  ∨ (∃ s3, processEpochEnd cfg metrics s = StepOut.ret (finishReturn s3)) := by
  simp only [processEpochEnd]
  repeat' split
  all_goals first
    | exact Or.inl ⟨_, rfl⟩
    | exact Or.inr ⟨_, rfl⟩

theorem runBatches_shape (cfg : TrainConfig) (losses : ℕ → ℕ → ℚ)
    (metrics : ℕ → ℚ) (e : ℕ) (l : List ℕ) :
    ∀ s, (∃ s1, runBatches cfg losses metrics e l s = StepOut.cont s1)
  ∨ (∃ s3, runBatches cfg losses metrics e l s =
      StepOut.ret (finishReturn s3)) := by
  induction l with
  | nil => intro s; exact Or.inl ⟨s, rfl⟩
  | cons i rest ih =>
    intro s
    rcases processBatch_shape cfg losses metrics e i s with ⟨s1, h⟩ | ⟨s3, h⟩
    · rw [runBatches_cons_cont h]; exact ih s1
    · rw [runBatches_cons_ret h]; exact Or.inr ⟨s3, rfl⟩

theorem runEpoch_shape (cfg : TrainConfig) (losses : ℕ → ℕ → ℚ)
    (metrics : ℕ → ℚ) (e : ℕ) (s : LoopState) :
    (∃ s1, runEpoch cfg losses metrics e s = StepOut.cont s1)
  ∨ (∃ s3, runEpoch cfg losses metrics e s = StepOut.ret (finishReturn s3)) := by
  unfold runEpoch
  split
  · exact Or.inl ⟨_, rfl⟩
  · rcases runBatches_shape cfg losses metrics e
      (List.range cfg.batchesPerEpoch) s with ⟨s1, h⟩ | ⟨s3, h⟩
    · rw [h]
      exact processEpochEnd_shape cfg metrics s1
    · rw [h]
      exact Or.inr ⟨s3, rfl⟩

theorem runEpochs_shape (cfg : TrainConfig) (losses : ℕ → ℕ → ℚ)
    (metrics : ℕ → ℚ) (l : List ℕ) :
    ∀ s, (∃ s1, runEpochs cfg losses metrics l s = StepOut.cont s1)
  ∨ (∃ s3, runEpochs cfg losses metrics l s =
      StepOut.ret (finishReturn s3)) := by
  induction l with
  | nil => intro s; exact Or.inl ⟨s, rfl⟩
  | cons e rest ih =>
    intro s
    rcases runEpoch_shape cfg losses metrics e s with ⟨s1, h⟩ | ⟨s3, h⟩
    · simpa [runEpochs, h] using ih s1
    · simp [runEpochs, h]

theorem evalEvent_no_halt (mz sb : Bool) (delta : ℚ) (patience : ℕ)
    (s : ESState) (m : ℚ) :
    (evalEvent mz false sb delta patience s m).out ≠ ESOutcome.halt := by
  intro h
  simp only [evalEvent] at h
  repeat' split at h
  all_goals simp_all

theorem processBatch_cont_of_no_es (cfg : TrainConfig)
    (hes : cfg.use_early_stopping = false) (losses : ℕ → ℕ → ℚ)
    (metrics : ℕ → ℚ) (e i : ℕ) (s : LoopState) :
    ∃ s1, processBatch cfg losses metrics e i s = StepOut.cont s1 := by
  simp only [processBatch, hes]
  repeat' split
  all_goals try exact ⟨_, rfl⟩
  all_goals rename_i heq hga
  all_goals exact absurd heq (evalEvent_no_halt _ _ _ _ _ _)

theorem processEpochEnd_cont_of_no_es (cfg : TrainConfig)
    (hes : cfg.use_early_stopping = false) (metrics : ℕ → ℚ) (s : LoopState) :
    ∃ s1, processEpochEnd cfg metrics s = StepOut.cont s1 := by
  simp only [processEpochEnd, hes, Bool.false_and]
  repeat' split
  all_goals try exact ⟨_, rfl⟩
  rename_i heq
  exact absurd heq (evalEvent_no_halt _ _ _ _ _ _)

theorem runBatches_cont_of_no_es (cfg : TrainConfig)
    (hes : cfg.use_early_stopping = false) (losses : ℕ → ℕ → ℚ)
    (metrics : ℕ → ℚ) (e : ℕ) (l : List ℕ) :
    ∀ s, ∃ s1, runBatches cfg losses metrics e l s = StepOut.cont s1 := by
  induction l with
  | nil => intro s; exact ⟨s, rfl⟩
  | cons i rest ih =>
    intro s
    obtain ⟨s1, h⟩ := processBatch_cont_of_no_es cfg hes losses metrics e i s
    rw [runBatches_cons_cont h]
    exact ih s1

theorem runEpochs_cont_of_no_es (cfg : TrainConfig)
    (hes : cfg.use_early_stopping = false) (losses : ℕ → ℕ → ℚ)
    (metrics : ℕ → ℚ) (l : List ℕ) :
    ∀ s, ∃ s1, runEpochs cfg losses metrics l s = StepOut.cont s1 := by
  induction l with
  | nil => intro s; exact ⟨s, rfl⟩
  | cons e rest ih =>
    intro s
    by_cases hsk : 0 < s.epochsTrained
    · have h : runEpoch cfg losses metrics e s =
          StepOut.cont { s with epochsTrained := s.epochsTrained - 1 } := by
        simp [runEpoch, hsk]
      have h2 : runEpochs cfg losses metrics (e :: rest) s =
          runEpochs cfg losses metrics rest
            { s with epochsTrained := s.epochsTrained - 1 } := by
        simp [runEpochs, h]
      rw [h2]
      exact ih _
    · obtain ⟨s1, h1⟩ := runBatches_cont_of_no_es cfg hes losses metrics e
        (List.range cfg.batchesPerEpoch) s
      obtain ⟨s2, h2⟩ := processEpochEnd_cont_of_no_es cfg hes metrics s1
      have h : runEpoch cfg losses metrics e s = StepOut.cont s2 := by
        simp [runEpoch, hsk, h1, h2]
      have h3 : runEpochs cfg losses metrics (e :: rest) s =
          runEpochs cfg losses metrics rest s2 := by
        simp [runEpochs, h]
      rw [h3]
      exact ih s2

/-! ### C1: early-stopping timing -/

theorem c1_eval_step (v : ℕ → ℚ) (k P : ℕ) (hk : 1 ≤ k) (hP : 1 ≤ P)
    (hdec : ∀ i, i < k → v (i + 1) < v i) (hnz : ∀ i, i ≤ k → v i ≠ 0)
    (j : ℕ) (hj : j ≤ k + P) :
    (evalEvent true true false 0 P ⟨c1Best v k j, c1Counter k j⟩
        (v (min j k))).out =
      ESOutcome.cont ⟨c1Best v k (j + 1), c1Counter k (j + 1)⟩ := by
  have hP0 : 0 < P := hP
  rcases Nat.eq_zero_or_pos j with rfl | hj0
  · have hnz0 : v 0 ≠ 0 := hnz 0 (by omega)
    simp [evalEvent, pyFalsyQ, c1Best, c1Counter, Nat.zero_min, hnz0, hP0,
      sub_self, lt_irrefl]
  · rcases le_or_lt j k with hjk | hjk
    · have hmin1 : min j k = j := Nat.min_eq_left hjk
      have hmin2 : min (j - 1) k = j - 1 := Nat.min_eq_left (by omega)
      have hmin3 : min (j + 1 - 1) k = j := by
        rw [Nat.add_sub_cancel]; exact hmin1
      have hlt : v j < v (j - 1) := by
        have h2 := hdec (j - 1) (by omega)
        rwa [Nat.sub_add_cancel hj0] at h2
      have hnz1 : v (j - 1) ≠ 0 := hnz (j - 1) (by omega)
      have hsub : v j - v (j - 1) < 0 := sub_neg.mpr hlt
      have e0 : j ≠ 0 := by omega
      have e1 : j + 1 ≠ 1 := by omega
      have e2 : j + 1 ≤ k + 1 := by omega
      simp [evalEvent, pyFalsyQ, c1Best, c1Counter, e0, e1, e2, hmin1, hmin2,
        hmin3, hnz1, hsub]
    · have hmin1 : min j k = k := Nat.min_eq_right (by omega)
      have hb : c1Best v k j = some (v k) := by
        have e0 : j ≠ 0 := by omega
        have hmin2 : min (j - 1) k = k := Nat.min_eq_right (by omega)
        simp [c1Best, e0, hmin2]
      have hb2 : c1Best v k (j + 1) = some (v k) := by
        simp [c1Best, Nat.add_sub_cancel, hmin1]
      have hc : c1Counter k j = j - (k + 1) := by
        have f0 : j ≠ 0 := by omega
        have f1 : j ≠ 1 := by omega
        by_cases f2 : j ≤ k + 1
        · have f3 : j - (k + 1) = 0 := by omega
          simp [c1Counter, f0, f1, f2, f3]
        · have f3 : j - 1 - k = j - (k + 1) := by omega
          simp [c1Counter, f0, f1, f2, f3]
      have hc2 : c1Counter k (j + 1) = j - (k + 1) + 1 := by
        have e0 : j + 1 ≠ 0 := by omega
        have e1 : j + 1 ≠ 1 := by omega
        have e2 : ¬ (j + 1 ≤ k + 1) := by omega
        have e3 : j + 1 - 1 - k = j - (k + 1) + 1 := by omega
        simp [c1Counter, e0, e1, e2, e3]
        omega
      have hcP : j - (k + 1) < P := by omega
      have hnzk : v k ≠ 0 := hnz k le_rfl
      rw [hmin1, hb, hb2, hc, hc2]
      simp [evalEvent, pyFalsyQ, hnzk, sub_self, lt_irrefl, hcP]

theorem c1_eval_halt (v : ℕ → ℚ) (k P : ℕ) (hk : 1 ≤ k)
    (hnz : ∀ i, i ≤ k → v i ≠ 0) :
    (evalEvent true true false 0 P
        ⟨c1Best v k (k + P + 1), c1Counter k (k + P + 1)⟩
        (v (min (k + P + 1) k))).out = ESOutcome.halt := by
  have hb : c1Best v k (k + P + 1) = some (v k) := by
    have e0 : k + P + 1 ≠ 0 := by omega
    have hmin2 : min (k + P + 1 - 1) k = k := Nat.min_eq_right (by omega)
    simp [c1Best, e0, hmin2]
  have hc : c1Counter k (k + P + 1) = P := by
    have f0 : k + P + 1 ≠ 0 := by omega
    have f1 : k + P + 1 ≠ 1 := by omega
    by_cases f2 : k + P + 1 ≤ k + 1
    · have f3 : P = 0 := by omega
      simp [c1Counter, f0, f1, f2, f3]
      omega
    · have f3 : k + P + 1 - 1 - k = P := by omega
      simp [c1Counter, f0, f1, f2, f3]
  have hmin1 : min (k + P + 1) k = k := Nat.min_eq_right (by omega)
  have hnzk : v k ≠ 0 := hnz k le_rfl
  rw [hmin1, hb, hc]
  simp [evalEvent, pyFalsyQ, hnzk, sub_self, lt_irrefl]

theorem c1_processBatch_cont (v : ℕ → ℚ) (k P : ℕ) (hk : 1 ≤ k) (hP : 1 ≤ P)
    (hdec : ∀ i, i < k → v (i + 1) < v i) (hnz : ∀ i, i ≤ k → v i ≠ 0)
    (losses : ℕ → ℕ → ℚ) (n : ℕ) (j : ℕ) (hj : j ≤ k + P) (t : ℚ) :
    processBatch (c1Cfg P n) losses (c1Metric v k) 0 j (c1State v k j t) =
      StepOut.cont (c1State v k (j + 1) (t + losses 0 j)) := by
  simp only [processBatch, c1Cfg, c1State, c1Metric, lt_self_iff_false,
    if_false, Nat.mod_one, Nat.lt_irrefl]
  rw [c1_eval_step v k P hk hP hdec hnz j hj]
  simp

theorem c1_processBatch_halt (v : ℕ → ℚ) (k P : ℕ) (hk : 1 ≤ k)
    (hnz : ∀ i, i ≤ k → v i ≠ 0) (losses : ℕ → ℕ → ℚ) (n : ℕ) (t : ℚ) :
    processBatch (c1Cfg P n) losses (c1Metric v k) 0 (k + P + 1)
        (c1State v k (k + P + 1) t) =
      StepOut.ret (some (k + P + 2,
        (t + losses 0 (k + P + 1)) / ((k + P + 2 : ℕ) : ℚ))) := by
  simp only [processBatch, c1Cfg, c1State, c1Metric, lt_self_iff_false,
    if_false, Nat.mod_one, Nat.lt_irrefl]
  rw [c1_eval_halt v k P hk hnz]
  simp [finishReturn]
  ring_nf

theorem c1_runBatches (v : ℕ → ℚ) (k P : ℕ) (hk : 1 ≤ k) (hP : 1 ≤ P)
    (hdec : ∀ i, i < k → v (i + 1) < v i) (hnz : ∀ i, i ≤ k → v i ≠ 0)
    (losses : ℕ → ℕ → ℚ) (n : ℕ) (hn : k + P + 2 ≤ n) :
    ∀ d j t, j + d = k + P + 1 →
      ∃ L, runBatches (c1Cfg P n) losses (c1Metric v k) 0
        (List.range' j (n - j)) (c1State v k j t) =
        StepOut.ret (some (k + P + 2, L)) := by
  intro d
  induction d with
  | zero =>
    intro j t hjd
    obtain rfl : j = k + P + 1 := by omega
    obtain ⟨m, hm⟩ : ∃ m, n - (k + P + 1) = m + 1 :=
      ⟨n - (k + P + 1) - 1, by omega⟩
    rw [hm]
    have hpb := c1_processBatch_halt v k P hk hnz losses n t
    rw [List.range'_succ]
    rw [runBatches_cons_ret hpb]
    exact ⟨_, rfl⟩
  | succ d ih =>
    intro j t hjd
    have hjle : j ≤ k + P := by omega
    obtain ⟨m, hm⟩ : ∃ m, n - j = m + 1 := ⟨n - j - 1, by omega⟩
    rw [hm, List.range'_succ]
    have hpb := c1_processBatch_cont v k P hk hP hdec hnz losses n j hjle t
    rw [runBatches_cons_cont hpb]
    have hm2 : m = n - (j + 1) := by omega
    rw [hm2]
    exact ih (j + 1) (t + losses 0 j) (by omega)

/-- Claim C1 (corrected): in minimize mode with early stopping on, delta 0,
patience `P ≥ 1`, an evaluation event at every optimizer step and a non-zero
metric stream that strictly decreases through event `k ≥ 1` and stays flat
afterwards, `train` terminates exactly `P + 1` evaluation events after the
last improving event — at global step `k + P + 2`, one event later than the
claimed `P` (see `claim_C1_counterexample`), because the patience check
happens before the counter increment.  Moreover every exit of `train` returns
the pair `(global_step, tr_loss / global_step)` of the state at the exit, and
when early stopping is disabled the loop never exits early: it always reaches
the end of the epoch list. -/
theorem claim_C1 :
    (∀ (v : ℕ → ℚ) (k P n : ℕ) (losses : ℕ → ℕ → ℚ),
       1 ≤ k → 1 ≤ P → k + P + 2 ≤ n →
       (∀ i, i < k → v (i + 1) < v i) → (∀ i, i ≤ k → v i ≠ 0) →
       ∃ L, trainRun (c1Cfg P n) losses (c1Metric v k) = some (k + P + 2, L))
  ∧ (∀ (cfg : TrainConfig) (losses : ℕ → ℕ → ℚ) (metrics : ℕ → ℚ),
       ∃ s, trainRun cfg losses metrics = finishReturn s)
  ∧ (∀ (cfg : TrainConfig) (losses : ℕ → ℕ → ℚ) (metrics : ℕ → ℚ),
       cfg.use_early_stopping = false →
       ∃ s, runEpochs cfg losses metrics (List.range cfg.num_train_epochs)
         (initialLoopState cfg) = StepOut.cont s) := by
  refine ⟨?_, ?_, ?_⟩
  · intro v k P n losses hk hP hn hdec hnz
    obtain ⟨L, hL⟩ := c1_runBatches v k P hk hP hdec hnz losses n hn
      (k + P + 1) 0 0 (by omega)
    refine ⟨L, ?_⟩
    have hs0 : initialLoopState (c1Cfg P n) = c1State v k 0 0 := by
      simp [initialLoopState, c1Cfg, c1State, c1Best, c1Counter]
    rw [Nat.sub_zero] at hL
    have hrb : runBatches (c1Cfg P n) losses (c1Metric v k) 0
        (List.range ((c1Cfg P n).batchesPerEpoch))
        (initialLoopState (c1Cfg P n)) = StepOut.ret (some (k + P + 2, L)) := by
      rw [show (c1Cfg P n).batchesPerEpoch = n from rfl, List.range_eq_range',
        hs0]
      exact hL
    have hre : runEpoch (c1Cfg P n) losses (c1Metric v k) 0
        (initialLoopState (c1Cfg P n)) = StepOut.ret (some (k + P + 2, L)) := by
      have hcond : ¬ 0 < (initialLoopState (c1Cfg P n)).epochsTrained := by
        simp [initialLoopState, c1Cfg]
      unfold runEpoch
      rw [if_neg hcond, hrb]
    have hres : runEpochs (c1Cfg P n) losses (c1Metric v k) (List.range 1)
        (initialLoopState (c1Cfg P n)) = StepOut.ret (some (k + P + 2, L)) := by
      rw [show List.range 1 = [0] from rfl]
      simp [runEpochs, hre]
    unfold trainRun
    rw [show (c1Cfg P n).num_train_epochs = 1 from rfl, hres]
  · intro cfg losses metrics
    rcases runEpochs_shape cfg losses metrics (List.range cfg.num_train_epochs)
      (initialLoopState cfg) with ⟨s1, h⟩ | ⟨s3, h⟩
    · exact ⟨s1, by simp [trainRun, h]⟩
    · exact ⟨s3, by simp [trainRun, h]⟩
  · intro cfg losses metrics hes
    exact runEpochs_cont_of_no_es cfg hes losses metrics _ _

/-- Witness for C1: metric stream 10, 9, 8, 8, ... with patience 1 over 5
batches stops at global step 2 + 1 + 2 = 5. -/
theorem claim_C1_witness :
    ∃ L, trainRun (c1Cfg 1 5) (fun _ _ => 1) (c1Metric c1Vals 2) =
      some (5, L) :=
  claim_C1.1 c1Vals 2 1 5 (fun _ _ => 1) (by norm_num) (by norm_num)
    (by norm_num)
    (by intro i hi; interval_cases i <;> norm_num [c1Vals])
    (by intro i hi; interval_cases i <;> norm_num [c1Vals])

/-- Counterexample for C1 as stated: with the metric stream 10, 9, 8, 8, ...
(last improving event at global step 3) and patience 1, the claim predicts
termination exactly one evaluation event later, at global step 4; the code
actually terminates at global step 5, two events after the last improvement,
returning `(5, 5/5)`. -/
theorem claim_C1_counterexample :
    trainRun (c1Cfg 1 5) (fun _ _ => 1) (c1Metric c1Vals 2) = some (5, 1)
  ∧ (5 : ℕ) ≠ 3 + 1 := by
  constructor
  · norm_num [trainRun, runEpochs, runEpoch, runBatches, processBatch,
      evalEvent, pyFalsyQ, finishReturn, c1Cfg, c1Metric, c1Vals,
      initialLoopState, List.range_succ]
  · decide
